import Mathlib

/-!
Verification of the reign router core (route-table compiler) against its
natural-language specification.

The embedding below follows `src/reign_router/src/lib.rs` (the `Router`
type, its builder methods `pipe`/`scope`/`any`, and the flattening
functions `Router::regex` and `Router::refs`) and
`src/reign/reign_derive/src/router/path.rs` (path-segment parsing).
Opaque runtime values are represented by identifiers:
middleware items, handlers and constraints are `Nat` ids, and Rust
`String` values produced by `format!` concatenation are `List Char`.

The crate modules `scope.rs`, `pipe.rs`, `route.rs`, `path.rs` and
`service.rs` of `reign_router` are not part of the sources; the small
pieces of them that the flattener needs (`Scope::regex`, `Scope::refs`,
`Route::regex`, `Pipe`'s middleware list) are modelled from the
specification and are marked as such in their doc comments.
-/

/-- Rust `String` fragments (regex text) are modelled as lists of
characters so that concatenation lemmas are available. -/
abbrev Str := List Char

/-- Modelled from the spec: `pipe.rs` is not under the sources. A pipe is
an ordered list of middleware (§3: "name + ordered list of middleware");
middleware items are identified by `Nat` ids. -/
structure Pipe where
  middlewares : List Nat
deriving DecidableEq, Repr

/-- `Pipe::new()` — a pipe with no middleware yet. -/
def Pipe.new : Pipe := ⟨[]⟩

/-- Modelled from the spec: `Pipe::add` appends one middleware,
preserving declared order (§3: ordered list). -/
def Pipe.add (p : Pipe) (m : Nat) : Pipe := ⟨p.middlewares ++ [m]⟩

/-- The router's `pipes: HashMap<&str, Pipe>` field, embedded as an
association list with map semantics: `insert` replaces any existing
binding of the key, `get` finds the current binding. -/
abbrev PipeMap := List (String × Pipe)

/-- `HashMap::get` — the binding of `name`, if any. -/
def pipeGet (m : PipeMap) (name : String) : Option Pipe :=
  match m with
  | [] => none
  | (k, v) :: rest => if k = name then some v else pipeGet rest name

/-- `HashMap::insert` — replaces any existing binding of `name`. -/
def pipeInsert (m : PipeMap) (name : String) (p : Pipe) : PipeMap :=
  match m with
  | [] => [(name, p)]
  | (k, v) :: rest => if k = name then (name, p) :: rest else (k, v) :: pipeInsert rest name p

/-- Modelled from the spec: `route.rs` is not under the sources. A route
carries the data the flattener reads: the two components of
`Route::regex()` (the method part, left untouched by nesting, and the
path part, prefixed by scope patterns), its optional constraint and its
handler (§3 "Route — path pattern, set of allowed methods, optional
constraint, handler reference"). Constraints and handlers are ids. -/
structure Route where
  methodRegex : Str
  pathRegex : Str
  constraint : Option Nat
  handler : Nat
deriving DecidableEq, Repr

/-- `Route::regex()` as used by `Router::regex`: the pair whose second
component is prefixed by the enclosing scopes' patterns. -/
def Route.regex (r : Route) : Str × Str := (r.methodRegex, r.pathRegex)

/-- `service::RouteRef` as constructed by `Router::refs`
(`src/reign_router/src/lib.rs` lines 538-542): handler, middleware list,
constraint list. -/
structure RouteRef where
  handler : Nat
  middlewares : List Nat
  constraints : List (Option Nat)
deriving DecidableEq, Repr

mutual

/-- `Router` (`src/reign_router/src/lib.rs` lines 74-80): the `in_scope`
flag, the level's pipe map, child scopes and direct routes, both in
declaration order. -/
inductive Router : Type where
  | mk (inScope : Bool) (pipes : PipeMap) (scopes : ScopeList) (routes : List Route) : Router

/-- The `scopes: Vec<Scope>` field, as a specialised list so that the
flattening recursion is structural. -/
inductive ScopeList : Type where
  | nil : ScopeList
  | cons (s : Scope) (tl : ScopeList) : ScopeList

/-- Modelled from the spec: `scope.rs` is not under the sources. A scope
holds its own path pattern (here: its compiled regex fragment), optional
constraint, the pipe names it is threaded `through`, and the nested
router built by its body (§3 "Scope"). -/
inductive Scope : Type where
  | mk (pathRegex : Str) (constraint : Option Nat) (through : List String) (router : Router) : Scope

end

namespace Router

def inScope : Router → Bool
  | .mk b _ _ _ => b

def pipes : Router → PipeMap
  | .mk _ p _ _ => p

def scopes : Router → ScopeList
  | .mk _ _ s _ => s

def routes : Router → List Route
  | .mk _ _ _ r => r

end Router

namespace Scope

def pathRegex : Scope → Str
  | .mk p _ _ _ => p

def constraint : Scope → Option Nat
  | .mk _ c _ _ => c

def through : Scope → List String
  | .mk _ _ t _ => t

def router : Scope → Router
  | .mk _ _ _ r => r

end Scope

/-- Resolution of a scope's `through` list against a pipe map, exactly as
`Router::refs` does it (`src/reign_router/src/lib.rs` lines 550-560):
`flat_map` over the names in order; a name bound in the map contributes
that pipe's middleware in stored order, an unbound name contributes
nothing (`vec![]`). -/
def resolveThrough (m : PipeMap) (through : List String) : List Nat :=
  match through with
  | [] => []
  | n :: rest =>
    (match pipeGet m n with
     | some p => p.middlewares
     | none => []) ++ resolveThrough m rest

mutual

/-- `Router::regex` (`src/reign_router/src/lib.rs` lines 520-532): the
routes' own regexes first, then for each scope, in order, the scope's
entries with the scope's pattern prepended to the path component. -/
def Router.regex : Router → List (Str × Str)
  | .mk _ _ scopes routes => routes.map Route.regex ++ ScopeList.regexAll scopes

/-- The `for scope in &self.scopes` loop of `Router::regex`. -/
def ScopeList.regexAll : ScopeList → List (Str × Str)
  | .nil => []
  | .cons s tl =>
    (Scope.regex s).2.map (fun rr => (rr.1, (Scope.regex s).1 ++ rr.2)) ++ ScopeList.regexAll tl

/-- Modelled from the spec: `Scope::regex` returns the scope's own
pattern fragment together with the nested router's table, matching its
use at `src/reign_router/src/lib.rs` lines 524-528. -/
def Scope.regex : Scope → Str × List (Str × Str)
  | .mk path _ _ router => (path, Router.regex router)

end

mutual

/-- `Router::refs` (`src/reign_router/src/lib.rs` lines 534-574): direct
routes become refs with no middleware and the route's constraint; then
for each scope, in order, each nested ref is extended with the scope's
constraint in front and the middleware obtained by resolving the scope's
`through` names against this level's pipe map in front. -/
def Router.refs : Router → List RouteRef
  | .mk _ pipes scopes routes =>
    routes.map (fun x => ⟨x.handler, [], [x.constraint]⟩) ++ ScopeList.refsAll pipes scopes

/-- The `for scope in &self.scopes` loop of `Router::refs`; `pipes` is
the `self.pipes` of the level where the scopes were declared. -/
def ScopeList.refsAll : PipeMap → ScopeList → List RouteRef
  | _, .nil => []
  | pipes, .cons s tl =>
    (Scope.refs s).2.1.map (fun routeRef =>
      ⟨routeRef.handler,
       resolveThrough pipes (Scope.refs s).2.2 ++ routeRef.middlewares,
       (Scope.refs s).1 :: routeRef.constraints⟩) ++ ScopeList.refsAll pipes tl

/-- Modelled from the spec: `Scope::refs` returns the scope's constraint,
the nested router's refs, and the scope's `through` names, matching its
use at `src/reign_router/src/lib.rs` lines 546-563. -/
def Scope.refs : Scope → Option Nat × List RouteRef × List String
  | .mk _ c t router => (c, Router.refs router, t)

end

/-- `Router::default()` — outermost router level. -/
def Router.default : Router := .mk false [] .nil []

/-- `Router::in_scope()` (`src/reign_router/src/lib.rs` lines 83-88) —
the router a nested scope body is built on. -/
def Router.inScopeNew : Router := .mk true [] .nil []

/-- `Router::pipe` (`src/reign_router/src/lib.rs` lines 101-108): panics
(modelled as `Except.error`) when the router is in a scope; otherwise
inserts a fresh `Pipe::new()` under the name (replacing any existing
binding, per `HashMap::insert`). -/
def Router.pipe : Router → String → Except String Router
  | .mk true _ _ _, _ => .error "Pipes are not allowed to be defined in scopes"
  | .mk false pipes scopes routes, name =>
    .ok (.mk false (pipeInsert pipes name Pipe.new) scopes routes)

/-- `Pipe::add` called through the `&mut Pipe` that `Router::pipe`
returned: updates the named pipe in place. -/
def Router.pipeAdd : Router → String → Nat → Router
  | .mk b pipes scopes routes, name, m =>
    .mk b (pipeInsert pipes name (Pipe.add ((pipeGet pipes name).getD Pipe.new) m)) scopes routes

/-- `Vec::push` on the `scopes` field. -/
def ScopeList.push : ScopeList → Scope → ScopeList
  | .nil, s => .cons s .nil
  | .cons hd tl, s => .cons hd (ScopeList.push tl s)

/-- `Router::scope` / `scope_through` / `scope_as`
(`src/reign_router/src/lib.rs` lines 128-188): all push the scope onto
the end of `self.scopes`. -/
def Router.scopeAs : Router → Scope → Router
  | .mk b pipes scopes routes, s => .mk b pipes (ScopeList.push scopes s) routes

/-- `Router::any` / `all` and the method helpers
(`src/reign_router/src/lib.rs` lines 421-518): all push the route onto
the end of `self.routes`. -/
def Router.addRoute : Router → Route → Router
  | .mk b pipes scopes routes, rt => .mk b pipes scopes (routes ++ [rt])

/-- One builder call that adds a table entry: either a direct route
(`r.get`, `r.any`, ...) or a scope (`r.scope`, `r.scope_as`, ...). -/
inductive BuildCall : Type where
  | route (rt : Route) : BuildCall
  | scopeC (s : Scope) : BuildCall

/-- Replay a sequence of builder calls on a router. -/
def buildOn (r : Router) : List BuildCall → Router
  | [] => r
  | .route rt :: rest => buildOn (r.addRoute rt) rest
  | .scopeC s :: rest => buildOn (r.scopeAs s) rest

/-- The direct routes a call sequence declares, in call order. -/
def callRoutes : List BuildCall → List Route
  | [] => []
  | .route rt :: rest => rt :: callRoutes rest
  | .scopeC _ :: rest => callRoutes rest

/-- The scopes a call sequence declares, in call order. -/
def callScopes : List BuildCall → ScopeList
  | [] => .nil
  | .route _ :: rest => callScopes rest
  | .scopeC s :: rest => .cons s (callScopes rest)

/-- `ScopeList` concatenation (specification-side helper for stating how
builder calls accumulate). -/
def ScopeList.append : ScopeList → ScopeList → ScopeList
  | .nil, ys => ys
  | .cons x xs, ys => .cons x (ScopeList.append xs ys)

/-- The table entries one scope contributes to `Router::regex`
(`src/reign_router/src/lib.rs` lines 523-529). -/
def scopeEntries (s : Scope) : List (Str × Str) :=
  (Scope.regex s).2.map (fun rr => (rr.1, (Scope.regex s).1 ++ rr.2))

/-- `r.pipe(name).add(m)` — declare a pipe and add one middleware. -/
def declareAdd (r : Router) (name : String) (m : Nat) : Except String Router :=
  match r.pipe name with
  | .error e => .error e
  | .ok r2 => .ok (r2.pipeAdd name m)

/-- Two successive declarations of the same pipe name, each adding one
middleware. -/
def doubleDeclare (r : Router) (name : String) (m1 m2 : Nat) : Except String Router :=
  match declareAdd r name m1 with
  | .error e => .error e
  | .ok r2 => declareAdd r2 name m2

/-- A straight-line nesting: each level carries the pipe map of the
router at that depth together with the constraint and `through` list of
the single scope declared there; the innermost router holds the route. -/
def spineRouter : List (PipeMap × Option Nat × List String) → Route → Router
  | [], rt => .mk false [] .nil [rt]
  | (p, c, t) :: rest, rt =>
    .mk false p (.cons (.mk [] c t (spineRouter rest rt)) .nil) []

/-- The claim's wording for one scope's middleware: the concatenation,
in `through` order, of the named pipes' middleware (meaningful when every
name resolves; an unresolved name contributes nothing). -/
def specScopeMiddleware (m : PipeMap) (through : List String) : List Nat :=
  match through with
  | [] => []
  | n :: rest => ((pipeGet m n).getD Pipe.new).middlewares ++ specScopeMiddleware m rest

/-- The claim's wording for a whole spine: ancestor-to-route
concatenation of the per-level resolved middleware. -/
def specSpineMiddleware : List (PipeMap × Option Nat × List String) → List Nat
  | [] => []
  | (p, _, t) :: rest => specScopeMiddleware p t ++ specSpineMiddleware rest

mutual

/-- The route traversal both `Router::regex` and `Router::refs` perform:
direct routes first, then each scope's subtree in order, pairing every
route with the scope-pattern prefix accumulated on the way down. -/
def Router.flatRoutes : Router → List (Str × Route)
  | .mk _ _ scopes routes =>
    routes.map (fun rt => (([] : Str), rt)) ++ ScopeList.flatRoutesAll scopes

/-- The scope part of the common traversal. -/
def ScopeList.flatRoutesAll : ScopeList → List (Str × Route)
  | .nil => []
  | .cons (.mk path _ _ inner) tl =>
    (Router.flatRoutes inner).map (fun pr => (path ++ pr.1, pr.2)) ++ ScopeList.flatRoutesAll tl

end

/-! Path-segment parsing, following
`src/reign/reign_derive/src/router/path.rs`. The `syn` token stream is
embedded as a list of the tokens that `PathSegment::parse` inspects;
types are embedded as head-symbol applications so that
`subty_if_name` can strip `Vec<_>` / `Option<_>`. -/

/-- A `syn::Type` as the sugar rules inspect it: a base type name, or a
one-argument application such as `Vec<T>` / `Option<T>`. -/
inductive Ty : Type where
  | base (s : String) : Ty
  | app (head : String) (arg : Ty) : Ty
deriving DecidableEq, Repr

/-- Modelled from the spec: `crate::router::ty::subty_if_name` (`ty.rs`
is not under the sources). Per §3's sugar rules it extracts `T` from
`Name<T>` when the head symbol matches, and nothing otherwise. -/
def subtyIfName : Ty → String → Option Ty
  | .base _, _ => none
  | .app h a, n => if h = n then some a else none

/-- The tokens `PathSegment::parse` peeks at
(`src/reign/reign_derive/src/router/path.rs` lines 1-7). -/
inductive Tok : Type where
  | lit (s : String) : Tok
  | ident (s : String) : Tok
  | question : Tok
  | star : Tok
  | colon : Tok
  | atSign : Tok
  | div : Tok
  | tyTok (t : Ty) : Tok
deriving DecidableEq, Repr

/-- `PathSegmentDynamic` (`path.rs` lines 9-15). -/
structure PathSegmentDynamic where
  ident : String
  optional : Bool
  glob : Bool
  ty : Option Ty
  regex : Option String
deriving DecidableEq, Repr

/-- `PathSegment` (`path.rs` lines 29-32). -/
inductive PathSegment : Type where
  | static (lit : String) : PathSegment
  | dynamic (d : PathSegmentDynamic) : PathSegment
deriving DecidableEq, Repr

/-- The `if input.peek(Colon)` step (`path.rs` lines 55-58): a `:` must
be followed by a type; without a `:` nothing is consumed. -/
def parseColonTy : List Tok → Option (Option Ty × List Tok)
  | .colon :: .tyTok t :: r => some (some t, r)
  | .colon :: _ => none
  | r => some (none, r)

/-- The `if input.peek(At)` step (`path.rs` lines 60-63): an `@` must be
followed by a literal; without an `@` nothing is consumed. -/
def parseAtRegex : List Tok → Option (Option String × List Tok)
  | .atSign :: .lit s :: r => some (some s, r)
  | .atSign :: _ => none
  | r => some (none, r)

/-- The type-sugar step (`path.rs` lines 65-79): `Vec<T>` sets `glob`
with element type `T`; `Option<T>` sets `optional`, and an inner
`Vec<U>` additionally sets `glob` with element type `U`. -/
def applySugar (d : PathSegmentDynamic) : PathSegmentDynamic :=
  match d.ty with
  | none => d
  | some t =>
    match subtyIfName t "Vec" with
    | some inner => { d with glob := true, ty := some inner }
    | none =>
      match subtyIfName t "Option" with
      | some inner =>
        match subtyIfName inner "Vec" with
        | some inner2 => { d with optional := true, glob := true, ty := some inner2 }
        | none => { d with optional := true, ty := some inner }
      | none => d

/-- `PathSegment::parse` (`path.rs` lines 34-84): a literal is a static
segment; otherwise an identifier begins a dynamic segment, followed by
`?`, or `*` (optionally `?`), or else an optional `:type` and then an
optional `@regex`, after which the type sugar applies. Returns the
segment and the unconsumed remainder, or `none` where `syn` errors. -/
def parseSegment : List Tok → Option (PathSegment × List Tok)
  | .lit s :: rest => some (.static s, rest)
  | .ident n :: .question :: r2 => some (.dynamic ⟨n, true, false, none, none⟩, r2)
  | .ident n :: .star :: .question :: r3 => some (.dynamic ⟨n, true, true, none, none⟩, r3)
  | .ident n :: .star :: r2 => some (.dynamic ⟨n, false, true, none, none⟩, r2)
  | .ident n :: rest =>
    match parseColonTy rest with
    | none => none
    | some (ty, r2) =>
      match parseAtRegex r2 with
      | none => none
      | some (re, r3) => some (.dynamic (applySugar ⟨n, false, false, ty, re⟩), r3)
  | _ => none

/-! Request-path matching of a compiled pattern. The regex generation and
the matching engine live in modules that are not under the sources
(`reign_router`'s `path.rs` / `service.rs`); the matcher below is
modelled from the spec, §4.2. -/

/-- Join captured components back with the path separator. -/
def joinSlash : List String → String
  | [] => ""
  | [c] => c
  | c :: rest => c ++ "/" ++ joinSlash rest

/-- Modelled from the spec: the matchable fragments of §4.2 needed here —
a static literal, a plain dynamic segment ("one or more non-slash
characters"), and a glob segment followed by further literal segments
("any characters including slash, non-greedy"). -/
inductive MatchSeg : Type where
  | static (lit : String) : MatchSeg
  | param (name : String) : MatchSeg
  | glob (name : String) : MatchSeg
deriving DecidableEq, Repr

mutual

/-- Modelled from the spec (§4.2): match a pattern against the
slash-separated components of a request path, returning the parameter
bindings. A glob segment captures one or more components, as few as
possible (non-greedy), joined back with `/`. -/
def matchSegs : List MatchSeg → List String → Option (List (String × String))
  | [], [] => some []
  | [], _ :: _ => none
  | .static l :: ps, c :: cs => if c = l then matchSegs ps cs else none
  | .static _ :: _, [] => none
  | .param n :: ps, c :: cs =>
    if c = "" then none else (matchSegs ps cs).map (fun bs => (n, c) :: bs)
  | .param _ :: _, [] => none
  | .glob n :: ps, c :: cs => globShortest n ps [c] cs
  | .glob _ :: _, [] => none
termination_by ps cs => (ps.length, cs.length, 1)

/-- Non-greedy glob capture: stop at the shortest prefix of components
after which the rest of the pattern matches. -/
def globShortest (n : String) (ps : List MatchSeg) (taken : List String)
    (cs : List String) : Option (List (String × String)) :=
  match matchSegs ps cs with
  | some bs => some ((n, joinSlash taken) :: bs)
  | none =>
    match cs with
    | [] => none
    | c :: cs2 => globShortest n ps (taken ++ [c]) cs2
termination_by (ps.length + 1, cs.length, 0)

end

/-! Concrete routers used to settle individual claims. Handler,
middleware and constraint ids are small numerals; pattern fragments are
short character lists. -/

/-- The router of `tests/pipes.rs::test_invalid_pipe`: at the top level,
a scope with `through(&["app"])` although no pipe `app` was ever
declared; its body holds one `GET ""` route (handler id 0). -/
def c1Router : Router :=
  Router.scopeAs Router.default
    (.mk [] none ["app"] (.mk true [] .nil [⟨['G'], [], none, 0⟩]))

/-- The router of `tests/pipes.rs::test_pipe_in_upper_scope`: pipe
`secret` (middleware id 7) is declared at the top level, while a
grandchild scope references it via `through(&["secret"])`. -/
def c2Router : Router :=
  .mk false [("secret", ⟨[7]⟩)]
    (.cons
      (.mk ['p'] none []
        (.mk true []
          (.cons (.mk [] none ["secret"] (.mk true [] .nil [⟨['G'], [], none, 0⟩])) .nil)
          []))
      .nil)
    []

/-- The router of `tests/pipes.rs::test_pipe_in_scope`: pipe `secret`
(middleware id 7) lives in the pipe map of scope `pipe`'s own body, and
the child scope declared in that same body references it. -/
def c2BodyRouter : Router :=
  .mk false []
    (.cons
      (.mk ['p'] none []
        (.mk true [("secret", ⟨[7]⟩)]
          (.cons (.mk [] none ["secret"] (.mk true [] .nil [⟨['G'], [], none, 0⟩])) .nil)
          []))
      .nil)
    []

/-- A scope declared first: prefix `s/`, body holding one route with
path fragment `a` (handler id 1). -/
def c3Scope : Scope :=
  .mk ['s', '/'] none [] (.mk true [] .nil [⟨['G'], ['a'], none, 1⟩])

/-- A direct route declared second: path fragment `b` (handler id 2). -/
def c3Route : Route := ⟨['G'], ['b'], none, 2⟩

/-- Builder calls in order: first the scope, then the direct route. -/
def c3Router : Router :=
  buildOn Router.default [.scopeC c3Scope, .route c3Route]

/-- Two-level spine for the middleware-order claim: the root level
declares pipes `p1` (middleware 1, 2) and `p2` (middleware 3) and its
scope goes through `p2` then `p1` under constraint 10; the next level
declares pipe `q` (middleware 4) and its scope goes through `q` under
constraint 11; the route itself has constraint 12 and handler 5. -/
def c4Levels : List (PipeMap × Option Nat × List String) :=
  [([("p1", ⟨[1, 2]⟩), ("p2", ⟨[3]⟩)], some 10, ["p2", "p1"]),
   ([("q", ⟨[4]⟩)], some 11, ["q"])]

/-- The route at the end of the two-level spine. -/
def c4Route : Route := ⟨['G'], ['x'], some 12, 5⟩

/-! Helper lemmas. -/

theorem pipeGet_insert_self (m : PipeMap) (n : String) (p : Pipe) :
    pipeGet (pipeInsert m n p) n = some p := by
  induction m with
  | nil => simp [pipeInsert, pipeGet]
  | cons hd tl ih =>
    obtain ⟨k, v⟩ := hd
    by_cases h : k = n <;> simp [pipeInsert, pipeGet, h, ih]

theorem resolveThrough_eq_spec (m : PipeMap) (t : List String) :
    resolveThrough m t = specScopeMiddleware m t := by
  induction t with
  | nil => rfl
  | cons n rest ih =>
    simp only [resolveThrough, specScopeMiddleware, ih]
    cases pipeGet m n <;> simp [Pipe.new]

theorem scopeList_append_nil : ∀ sl : ScopeList, ScopeList.append sl .nil = sl
  | .nil => rfl
  | .cons s tl => by simp [ScopeList.append, scopeList_append_nil tl]

theorem scopeList_append_push : ∀ (sl : ScopeList) (s : Scope) (rest : ScopeList),
    ScopeList.append (ScopeList.push sl s) rest = ScopeList.append sl (.cons s rest)
  | .nil, s, rest => rfl
  | .cons hd tl, s, rest => by simp [ScopeList.push, ScopeList.append, scopeList_append_push tl]

theorem buildOn_regex (calls : List BuildCall) :
    ∀ (b : Bool) (p : PipeMap) (sc : ScopeList) (rts : List Route),
    Router.regex (buildOn (.mk b p sc rts) calls) =
      (rts ++ callRoutes calls).map Route.regex ++
        ScopeList.regexAll (ScopeList.append sc (callScopes calls)) := by
  induction calls with
  | nil =>
    intro b p sc rts
    simp [buildOn, callRoutes, callScopes, scopeList_append_nil, Router.regex]
  | cons c rest ih =>
    intro b p sc rts
    cases c with
    | route rt =>
      simp only [buildOn, Router.addRoute, callRoutes, callScopes, ih]
      simp
    | scopeC s =>
      simp only [buildOn, Router.scopeAs, callRoutes, callScopes, ih, scopeList_append_push]

mutual

theorem router_regex_eq_flat : ∀ r : Router,
    Router.regex r = (Router.flatRoutes r).map (fun pr => (pr.2.methodRegex, pr.1 ++ pr.2.pathRegex))
  | .mk b p sc rts => by
    have ih := scopeList_regex_eq_flat sc
    simp [Router.regex, Router.flatRoutes, ih, List.map_map, Function.comp, Route.regex]

theorem scopeList_regex_eq_flat : ∀ sc : ScopeList,
    ScopeList.regexAll sc =
      (ScopeList.flatRoutesAll sc).map (fun pr => (pr.2.methodRegex, pr.1 ++ pr.2.pathRegex))
  | .nil => rfl
  | .cons (.mk path c t inner) tl => by
    have ih1 := router_regex_eq_flat inner
    have ih2 := scopeList_regex_eq_flat tl
    simp [ScopeList.regexAll, ScopeList.flatRoutesAll, Scope.regex, ih1, ih2, List.map_map,
      Function.comp, List.append_assoc]

end

mutual

theorem router_refs_handlers : ∀ r : Router,
    (Router.refs r).map RouteRef.handler = (Router.flatRoutes r).map (fun pr => pr.2.handler)
  | .mk b p sc rts => by
    have ih := scopeList_refs_handlers p sc
    simp [Router.refs, Router.flatRoutes, ih, List.map_map, Function.comp]

theorem scopeList_refs_handlers : ∀ (p : PipeMap) (sc : ScopeList),
    (ScopeList.refsAll p sc).map RouteRef.handler =
      (ScopeList.flatRoutesAll sc).map (fun pr => pr.2.handler)
  | _, .nil => rfl
  | p, .cons (.mk path c t inner) tl => by
    have ih1 := router_refs_handlers inner
    have ih2 := scopeList_refs_handlers p tl
    simp only [ScopeList.refsAll, ScopeList.flatRoutesAll, Scope.refs, List.map_append,
      List.map_map]
    exact congrArg₂ (· ++ ·) ih1 ih2

end

/-! Claim theorems. -/

/-- C1: evaluation of the code at the failing input of
`tests/pipes.rs::test_invalid_pipe`. The claim (and the crate's own
test, which expects a fatal `can't find pipe with name` panic) says that
flattening a router whose scope goes `through` an undeclared pipe fails
at build time. `Router::refs` is a total function that instead returns a
compiled entry whose middleware list is empty — the missing pipe is
silently omitted. -/
theorem c1_missing_pipe_silently_omitted :
    Router.refs c1Router = [⟨0, [], [none, none]⟩] := by decide

/-- C2: evaluation of the code at the failing input of
`tests/pipes.rs::test_pipe_in_upper_scope`. A pipe declared at an upper
level is indeed not visible to a deeper scope's `through` (first
conjunct: the entry carries no middleware), and a pipe declared in scope
S's own body is visible to `through` issued in S's body (second
conjunct: middleware id 7 is attached); but the out-of-scope reference
does not fail at build time as the claim and the crate's tests require —
flattening still produces an entry, silently without the middleware. -/
theorem c2_visibility_without_build_failure :
    Router.refs c2Router = [⟨0, [], [none, none, none]⟩] ∧
    Router.refs c2BodyRouter = [⟨0, [7], [none, none, none]⟩] :=
  ⟨by decide, by decide⟩

/-- C3 counterexample: a scope declared by the first builder call and a
direct route declared by the second. The claim says table order equals
call order, so the scope's route (path `s/a`) should come first; the
flat table instead lists the direct route (path `b`) first. -/
theorem c3_counterexample :
    Router.regex c3Router = [(['G'], ['b']), (['G'], ['s', '/', 'a'])] ∧
    Router.regex c3Router ≠ [(['G'], ['s', '/', 'a']), (['G'], ['b'])] :=
  ⟨by decide, by decide⟩

/-- C3 (amended): for every sequence of builder calls, the flat table
lists all the level's direct routes first, in route-call order, and then
all the scopes' tables, in scope-call order — direct routes and child
scopes do not interleave in overall call order. -/
theorem c3_amended_routes_before_scopes (calls : List BuildCall) :
    Router.regex (buildOn Router.default calls) =
      (callRoutes calls).map Route.regex ++ ScopeList.regexAll (callScopes calls) := by
  have h := buildOn_regex calls false [] .nil []
  simpa [Router.default, ScopeList.append] using h

/-- C4: in a nested chain of scopes, the compiled entry's middleware
list is the ancestor-to-route concatenation of each level's resolved
pipe middleware — within one level the pipes contribute in the order
their names were listed in `through`, each pipe's own middleware in its
declared order — and the constraint list is ancestor-to-route with the
route's own constraint last. The hypothesis states that every `through`
name resolves at its level, as the claim's "resolved pipes" presumes. -/
theorem c4_middleware_and_constraint_order
    (lvls : List (PipeMap × Option Nat × List String)) (rt : Route)
    (_h : ∀ l ∈ lvls, ∀ n ∈ l.2.2, (pipeGet l.1 n).isSome) :
    Router.refs (spineRouter lvls rt) =
      [⟨rt.handler, specSpineMiddleware lvls, lvls.map (fun l => l.2.1) ++ [rt.constraint]⟩] := by
  clear _h
  induction lvls with
  | nil => rfl
  | cons l rest ih =>
    obtain ⟨p, c, t⟩ := l
    simp [spineRouter, Router.refs, ScopeList.refsAll, Scope.refs, ih, specSpineMiddleware,
      resolveThrough_eq_spec]

/-- Witness for C4 at the concrete two-level spine. -/
theorem c4_witness :
    (∀ l ∈ c4Levels, ∀ n ∈ l.2.2, (pipeGet l.1 n).isSome) ∧
    Router.refs (spineRouter c4Levels c4Route) =
      [⟨c4Route.handler, specSpineMiddleware c4Levels,
        c4Levels.map (fun l => l.2.1) ++ [c4Route.constraint]⟩] :=
  ⟨by decide, c4_middleware_and_constraint_order c4Levels c4Route (by decide)⟩

/-- C5 counterexample: the concrete segment `{id:u32@"[0-9]+"}` versus
`{id@"[0-9]+":u32}`. With the type first, both annotations land in the
segment and the stream is consumed; with the regex first, the parser
never returns to the `:` check, so the segment carries no type and the
`:u32` tokens stay unconsumed — the two orders do not produce the same
parsed segment. -/
theorem c5_counterexample :
    parseSegment [.ident "id", .colon, .tyTok (.base "u32"), .atSign, .lit "[0-9]+"] =
      some (.dynamic ⟨"id", false, false, some (.base "u32"), some "[0-9]+"⟩, []) ∧
    parseSegment [.ident "id", .atSign, .lit "[0-9]+", .colon, .tyTok (.base "u32")] =
      some (.dynamic ⟨"id", false, false, none, some "[0-9]+"⟩,
        [.colon, .tyTok (.base "u32")]) ∧
    (PathSegmentDynamic.mk "id" false false (some (.base "u32")) (some "[0-9]+") ≠
      ⟨"id", false, false, none, some "[0-9]+"⟩) :=
  ⟨by decide, by decide, by decide⟩

/-- C5 (amended): only the `:type`-before-`@regex` order parses both
annotations. For every name, type, regex and stream remainder, the
type-first order consumes both annotations (then applies the type
sugar), while the regex-first order yields a segment with no type
annotation and leaves the `:type` tokens unconsumed, so an enclosing
parse that must consume them fails. -/
theorem c5_amended_annotation_order (n re : String) (t : Ty) (rest : List Tok) :
    parseSegment (.ident n :: .colon :: .tyTok t :: .atSign :: .lit re :: rest) =
      some (.dynamic (applySugar ⟨n, false, false, some t, some re⟩), rest) ∧
    parseSegment (.ident n :: .atSign :: .lit re :: .colon :: .tyTok t :: rest) =
      some (.dynamic ⟨n, false, false, none, some re⟩, .colon :: .tyTok t :: rest) :=
  ⟨by simp [parseSegment, parseColonTy, parseAtRegex],
   by simp [parseSegment, parseColonTy, parseAtRegex, applySugar]⟩

/-- C6: the type-annotation sugar. `Vec<T>` yields a glob segment with
element type `T`; `Option<Vec<T>>` yields an optional glob segment with
element type `T`; `Option<T>` (for a type `T` that is not a `Vec<_>`)
yields an optional segment with type `T`. -/
theorem c6_type_sugar (n : String) (t u : Ty) (h : subtyIfName u "Vec" = none) :
    parseSegment [.ident n, .colon, .tyTok (.app "Vec" t)] =
      some (.dynamic ⟨n, false, true, some t, none⟩, []) ∧
    parseSegment [.ident n, .colon, .tyTok (.app "Option" (.app "Vec" t))] =
      some (.dynamic ⟨n, true, true, some t, none⟩, []) ∧
    parseSegment [.ident n, .colon, .tyTok (.app "Option" u)] =
      some (.dynamic ⟨n, true, false, some u, none⟩, []) := by
  refine ⟨?_, ?_, ?_⟩
  · simp [parseSegment, parseColonTy, parseAtRegex, applySugar, subtyIfName]
  · simp [parseSegment, parseColonTy, parseAtRegex, applySugar, subtyIfName]
  · have h1 : subtyIfName (Ty.app "Option" u) "Vec" = none := by simp [subtyIfName]
    have h2 : subtyIfName (Ty.app "Option" u) "Option" = some u := by simp [subtyIfName]
    simp [parseSegment, parseColonTy, parseAtRegex, applySugar, h1, h2, h]

/-- Witness for C6 with the concrete types `Vec<str>`, `Option<Vec<str>>`
and `Option<u32>`. -/
theorem c6_witness :
    subtyIfName (Ty.base "u32") "Vec" = none ∧
    (parseSegment [.ident "id", .colon, .tyTok (.app "Vec" (.base "str"))] =
      some (.dynamic ⟨"id", false, true, some (.base "str"), none⟩, []) ∧
    parseSegment [.ident "id", .colon, .tyTok (.app "Option" (.app "Vec" (.base "str")))] =
      some (.dynamic ⟨"id", true, true, some (.base "str"), none⟩, []) ∧
    parseSegment [.ident "id", .colon, .tyTok (.app "Option" (.base "u32"))] =
      some (.dynamic ⟨"id", true, false, some (.base "u32"), none⟩, [])) :=
  ⟨by decide, c6_type_sugar "id" (.base "str") (.base "u32") (by decide)⟩

/-- C7 counterexample: declaring pipe `common` twice at the outermost
level, first adding middleware 1 and then middleware 2. The build does
not abort: both declarations succeed and the second declaration's fresh
pipe (middleware 2) replaces the first. -/
theorem c7_counterexample :
    doubleDeclare Router.default "common" 1 2 =
      .ok (.mk false [("common", ⟨[2]⟩)] .nil []) := rfl

/-- C7 (amended): declaring two pipes with the same name at the same
outermost router level is not a failure; the build proceeds and the
second declaration replaces the first, so the second declaration's
middleware is the one later resolution sees. -/
theorem c7_amended_second_declaration_wins (pipes : PipeMap) (scopes : ScopeList)
    (routes : List Route) (name : String) (m1 m2 : Nat) :
    (doubleDeclare (.mk false pipes scopes routes) name m1 m2).map
        (fun r2 => pipeGet r2.pipes name) = .ok (some ⟨[m2]⟩) := by
  simp [doubleDeclare, declareAdd, Router.pipe, Router.pipeAdd, Router.pipes,
    pipeGet_insert_self, Pipe.add, Pipe.new, Except.map]

/-- C8: `Router::pipe` called on an in-scope (nested) router fails
immediately for every pipe name, with the panic message of the source;
called on an outermost-level router it succeeds, stays at the outermost
level, and registers the named pipe (as a fresh empty pipe to which
middleware is then added). -/
theorem c8_pipe_only_at_top_level (pipes : PipeMap) (scopes : ScopeList)
    (routes : List Route) (name : String) :
    Router.pipe (.mk true pipes scopes routes) name =
      .error "Pipes are not allowed to be defined in scopes" ∧
    (Router.pipe (.mk false pipes scopes routes) name).map
        (fun r2 => (pipeGet r2.pipes name, r2.inScope)) = .ok (some Pipe.new, false) := by
  constructor
  · rfl
  · simp [Router.pipe, Router.pipes, Router.inScope, pipeGet_insert_self, Except.map]

/-- C9: glob capture with a trailing literal. The source parser marks
`{id*}` as a glob segment (`path.rs` lines 46-53), and the spec-modelled
matcher, matching the pattern `a/{id*}/b` against the path components of
`a/x/y/b`, succeeds and binds exactly `id = "x/y"` — the glob neither
swallows the trailing literal `b` nor leaves an empty or wrong capture. -/
theorem c9_glob_with_trailing_literal :
    parseSegment [.ident "id", .star] =
      some (.dynamic ⟨"id", false, true, none, none⟩, []) ∧
    matchSegs [.static "a", .glob "id", .static "b"] ["a", "x", "y", "b"] =
      some [("id", "x/y")] :=
  ⟨by decide, by simp [matchSegs, globShortest, joinSlash]⟩

/-- C10: `Router::regex` and `Router::refs` traverse the same routes in
the same order: both are images of the common traversal
`Router.flatRoutes` (direct routes first, then each scope's subtree, in
declaration order), so the two sequences have the same length and the
i-th compiled regex is generated from the very route whose handler the
i-th `RouteRef` carries. -/
theorem c10_regex_refs_aligned (r : Router) :
    (Router.regex r).length = (Router.refs r).length ∧
    Router.regex r =
      (Router.flatRoutes r).map (fun pr => (pr.2.methodRegex, pr.1 ++ pr.2.pathRegex)) ∧
    (Router.refs r).map RouteRef.handler =
      (Router.flatRoutes r).map (fun pr => pr.2.handler) := by
  refine ⟨?_, router_regex_eq_flat r, router_refs_handlers r⟩
  have h1 := congrArg List.length (router_regex_eq_flat r)
  have h2 := congrArg List.length (router_refs_handlers r)
  simp only [List.length_map] at h1 h2
  omega
